import Mathlib

/-
Verification development for the ComwareLikeDevice class
(src/netdev/comware_like.py): prompt-pattern construction
(_set_base_prompt), the system-view mode probe (_check_system_view),
the mode transitions (_system_view, _exit_system_view) and the
configuration-session orchestrator (send_config_set).

Strings from the wire are modelled as List Char.  Transport primitives
that live in the repository's base class (absent from src/) are modelled
from the spec and marked as such in their doc comments.
-/

namespace Netdev

/-- The characters Python's re.escape prefixes with a backslash
(CPython's _special_chars_map: the bytes of "()[]\x7b\x7d?*+-|^$\\.&~# \t\n\r\v\f"). -/
def reSpecialChars : List Char :=
  ['(', ')', '[', ']', '\x7b', '\x7d', '?', '*', '+', '-', '|', '^', '$',
   '\\', '.', '&', '~', '#', ' ', '\t', '\n', '\r', '\x0b', '\x0c']

/-- re.escape of a single character: special characters get a backslash. -/
def reEscapeChar (c : Char) : List Char :=
  if c ∈ reSpecialChars then ['\\', c] else [c]

/-- Python re.escape on a string, character by character. -/
def reEscape : List Char → List Char
  | [] => []
  | c :: rest => reEscapeChar c ++ reEscape rest

/-- Models the expression `r"|".join(map(re.escape, delimiters))` from
_set_base_prompt, for delimiter lists of single characters. -/
def delimJoin : List Char → List Char
  | [] => []
  | [c] => reEscapeChar c
  | c :: rest => reEscapeChar c ++ '|' :: delimJoin rest

/-- Boolean membership of a character in a string; models Python's
`c in s` on the texts read from the transport. -/
def containsChar (s : List Char) (c : Char) : Bool :=
  match s with
  | [] => false
  | x :: rest => x == c || containsChar rest c

/-- ASCII model of the regex word class backslash-w
(the inputs in this development are ASCII). -/
def isWordChar (c : Char) : Bool :=
  c.isAlphanum || c == '_'

/-- A character matched by the character class in the template's
middle piece, i.e. a hyphen or a word character. -/
def isWordHyphen (c : Char) : Bool :=
  c == '-' || isWordChar c

/-- The literal member characters of a regex character class body in
which every metacharacter is backslash-escaped (as produced by
re.escape): a backslash makes the next character a literal member,
everything else (including the bar) is its own literal member. -/
def classMembers : List Char → List Char
  | [] => []
  | c :: rest =>
    if c = '\\' then
      match rest with
      | [] => []
      | d :: rest' => d :: classMembers rest'
    else c :: classMembers rest

/-- Match a regex literal (a sequence of characters in which every
metacharacter is backslash-escaped) against the front of a string,
returning the remaining input on success. -/
def matchLit : List Char → List Char → Option (List Char)
  | [], s => some s
  | c :: pr, s =>
    if c = '\\' then
      match pr, s with
      | d :: pr', x :: s' => if x = d then matchLit pr' s' else none
      | _, _ => none
    else
      match s with
      | x :: s' => if x = c then matchLit pr s' else none
      | [] => none

/-- The plain text denoted by a backslash-escaped regex literal. -/
def unescapeLit : List Char → List Char
  | [] => []
  | c :: pr =>
    if c = '\\' then
      match pr with
      | [] => []
      | d :: pr' => d :: unescapeLit pr'
    else c :: unescapeLit pr

/-- Semantics of the template tail: zero or more word/hyphen characters
followed by one character of the closing class R (existentially, as
regex matching is). -/
def starThenClose (R : List Char) : List Char → Bool
  | [] => false
  | c :: rest => containsChar R c || (isWordHyphen c && starThenClose R rest)

/-- Match the whole built pattern (opener class L, escaped literal h,
word/hyphen star, closer class R) at the beginning of a string. -/
def matchHere (L h R : List Char) (s : List Char) : Bool :=
  match s with
  | [] => false
  | o :: rest =>
    containsChar L o &&
      (match matchLit h rest with
       | some rem => starThenClose R rem
       | none => false)

/-- Search semantics (Python re.search): the built pattern matches at
some position of the string. -/
def searchPat (L h R : List Char) : List Char → Bool
  | [] => false
  | c :: rest => matchHere L h R (c :: rest) || searchPat L h R rest

/-- Split a character-class body from the input: consume up to the
first unescaped closing bracket, keeping escape pairs intact. -/
def splitClass : List Char → Option (List Char × List Char)
  | [] => none
  | c :: rest =>
    if c = ']' then some ([], rest)
    else if c = '\\' then
      match rest with
      | [] => none
      | d :: rest' => (splitClass rest').map (fun p => ('\\' :: d :: p.1, p.2))
    else (splitClass rest).map (fun p => (c :: p.1, p.2))

/-- Split an escaped-literal run from the input: consume up to the
first unescaped opening bracket, keeping escape pairs intact. -/
def splitLit : List Char → Option (List Char × List Char)
  | [] => none
  | c :: rest =>
    if c = '[' then some ([], rest)
    else if c = '\\' then
      match rest with
      | [] => none
      | d :: rest' => (splitLit rest').map (fun p => ('\\' :: d :: p.1, p.2))
    else (splitLit rest).map (fun p => (c :: p.1, p.2))

/-- Parse a pattern string of the exact shape produced by the class
template `_pattern` (an opener class, an escaped hostname literal, the
fixed middle piece, a closer class) back into its three components. -/
def parseBuilt (p : List Char) : Option (List Char × List Char × List Char) :=
  match p with
  | '[' :: rest =>
    match splitClass rest with
    | some (l, rest1) =>
      match splitLit rest1 with
      | some (h, rest2) =>
        match rest2 with
        | '\\' :: '-' :: '\\' :: 'w' :: ']' :: '*' :: '[' :: rest3 =>
          match splitClass rest3 with
          | some (r, rest4) => if rest4 = [] then some (l, h, r) else none
          | none => none
        | _ => none
      | none => none
    | none => none
  | _ => none

/-- Search semantics of a built pattern string: parse it back into its
three components and run the matcher.  Patterns not of the built shape
are rejected. -/
def regexSearchString (pat : List Char) (s : List Char) : Bool :=
  match parseBuilt pat with
  | some (l, h, r) => searchPat (classMembers l) h (classMembers r) s
  | none => false

/-- The class template `_pattern` instantiated: the raw string
"[{0}]{1}[backslash-hyphen backslash-w]*[{2}]" with the three slots
filled (written here as the corresponding character list). -/
def formatPattern (l h r : List Char) : List Char :=
  '[' :: (l ++ (']' :: (h ++ ('[' :: ('\\' :: ('-' :: ('\\' :: ('w' :: (']' :: ('*' :: ('[' :: (r ++ [']']))))))))))))

/-- Class attribute `_delimiter_list` of ComwareLikeDevice: the closing
prompt delimiters (source line 43). -/
def delimiter_list : List Char := ['>', ']']

/-- Class attribute `_delimiter_left_list`: the opening prompt
delimiters (source line 46). -/
def delimiter_left_list : List Char := ['<', '[']

/-- Class attribute `_system_view_enter`: the command entering system
view (source line 55). -/
def system_view_enter : List Char := "system-view".data

/-- Class attribute `_system_view_exit`: the command leaving system
view (source line 58). -/
def system_view_exit : List Char := "return".data

/-- Class attribute `_system_view_check`: the marker character whose
presence in a prompt indicates system view (source line 61). -/
def system_view_check : Char := ']'

/-- The pair of fields `_base_prompt` / `_base_pattern` that
_set_base_prompt stores on the session. -/
structure PromptResult where
  base_prompt : List Char
  base_pattern : List Char
deriving DecidableEq

/-- Embedding of `_set_base_prompt` (source lines 64-85): strip the
first and last character of the raw prompt into `_base_prompt`, join
the escaped delimiter characters with a bar, escape the first twelve
characters of the base prompt, and instantiate the class template
`_pattern`.  The two delimiter lists are parameters because the source
reads them from `type(self)`; ComwareLikeDevice instantiates them to
`delimiter_left_list` and `delimiter_list`.  The raw prompt is a
parameter standing for the value of `await self._find_prompt()`. -/
def set_base_prompt (delim_left delim_right : List Char) (prompt : List Char) : PromptResult :=
  let bp := (prompt.drop 1).dropLast
  { base_prompt := bp
    base_pattern :=
      formatPattern (delimJoin delim_left) (reEscape (bp.take 12)) (delimJoin delim_right) }

/-- Failures of the embedded operations.  `enterFailed` models the
`ValueError("Failed to enter to system view")` of _system_view (the
spec's ModeTransitionError "enter"), `exitFailed` the corresponding
ValueError of _exit_system_view (the spec's ModeTransitionError
"exit"), and `transportError` a failed transport read (the spec's
TransportError, raised here when the scripted responses run out). -/
inductive DeviceError where
  | transportError : DeviceError
  | enterFailed : DeviceError
  | exitFailed : DeviceError
deriving DecidableEq

/-- The transport a session owns: the log of texts written so far and
the scripted sequence of texts the next reads will return. -/
structure Transport where
  writes : List (List Char)
  reads : List (List Char)
deriving DecidableEq

/-- Modelled from the spec: Write sends text on the transport.  The
model appends it to the write log. -/
def Transport.write (t : Transport) (s : List Char) : Transport :=
  { t with writes := t.writes ++ [s] }

/-- Modelled from the spec: ReadUntilPromptUnit (`_read_until_prompt`
of the base class, absent from src/) blocks until the next full prompt
unit is available; it may fail with a transport error.  The model
returns the next scripted response, or a transport error when the
script is exhausted. -/
def Transport.readUntilPrompt (t : Transport) : Except DeviceError (List Char) × Transport :=
  match t.reads with
  | [] => (Except.error DeviceError.transportError, t)
  | r :: rest => (Except.ok r, { t with reads := rest })

/-- Modelled from the spec: NormalizeCommand (`_normalize_cmd` of the
base class, absent from src/) appends the line terminator the wire
protocol expects. -/
def normalizeCmd (s : List Char) : List Char :=
  s ++ ['\n']

/-- Modelled from the spec: NormalizeLineFeeds (`_normalize_linefeeds`
of the base class, absent from src/) canonicalizes line endings;
modelled as rewriting CR-LF to LF. -/
def normalizeLinefeeds : List Char → List Char
  | '\r' :: '\n' :: rest => '\n' :: normalizeLinefeeds rest
  | c :: rest => c :: normalizeLinefeeds rest
  | [] => []

/-- Embedding of `_check_system_view` (source lines 87-93): write a
normalized blank line, read until the next prompt, and report whether
the check marker occurs in the text read.  The text itself is
discarded (the source returns only the boolean). -/
def check_system_view (t : Transport) : Except DeviceError Bool × Transport :=
  let t1 := t.write (normalizeCmd ['\n'])
  match t1.readUntilPrompt with
  | (Except.ok out, t2) => (Except.ok (containsChar out system_view_check), t2)
  | (Except.error e, t2) => (Except.error e, t2)

/-- Embedding of `_system_view` (source lines 95-105): if the probe
already reports system view, return empty output; otherwise write the
enter command, accumulate the response, re-probe, and fail with
`enterFailed` if the re-probe still reports user view.  On failure the
source raises, so the accumulated output is not returned; the model
mirrors this by returning the error without the text. -/
def system_view (t : Transport) : Except DeviceError (List Char) × Transport :=
  match check_system_view t with
  | (Except.error e, t1) => (Except.error e, t1)
  | (Except.ok true, t1) => (Except.ok [], t1)
  | (Except.ok false, t1) =>
    let t2 := t1.write (normalizeCmd system_view_enter)
    match t2.readUntilPrompt with
    | (Except.error e, t3) => (Except.error e, t3)
    | (Except.ok out, t3) =>
      match check_system_view t3 with
      | (Except.error e, t4) => (Except.error e, t4)
      | (Except.ok true, t4) => (Except.ok ([] ++ out), t4)
      | (Except.ok false, t4) => (Except.error DeviceError.enterFailed, t4)

/-- Embedding of `_exit_system_view` (source lines 107-117): if the
probe reports system view, write the exit command, accumulate the
response, re-probe, and fail with `exitFailed` if the re-probe still
reports system view; otherwise return empty output. -/
def exit_system_view (t : Transport) : Except DeviceError (List Char) × Transport :=
  match check_system_view t with
  | (Except.error e, t1) => (Except.error e, t1)
  | (Except.ok false, t1) => (Except.ok [], t1)
  | (Except.ok true, t1) =>
    let t2 := t1.write (normalizeCmd system_view_exit)
    match t2.readUntilPrompt with
    | (Except.error e, t3) => (Except.error e, t3)
    | (Except.ok out, t3) =>
      match check_system_view t3 with
      | (Except.error e, t4) => (Except.error e, t4)
      | (Except.ok true, t4) => (Except.error DeviceError.exitFailed, t4)
      | (Except.ok false, t4) => (Except.ok ([] ++ out), t4)

/-- Modelled from the spec: the generic multi-command delivery of the
base class (`BaseDevice.send_config_set`, absent from src/) delegates
the ordered command list to the transport, writing each normalized
command and accumulating the output read after each. -/
def base_send_config_set (cmds : List (List Char)) (t : Transport) :
    Except DeviceError (List Char) × Transport :=
  match cmds with
  | [] => (Except.ok [], t)
  | c :: rest =>
    let t1 := t.write (normalizeCmd c)
    match t1.readUntilPrompt with
    | (Except.error e, t2) => (Except.error e, t2)
    | (Except.ok out, t2) =>
      match base_send_config_set rest t2 with
      | (Except.ok outs, t3) => (Except.ok (out ++ outs), t3)
      | (Except.error e, t3) => (Except.error e, t3)

/-- Embedding of `send_config_set` (source lines 119-141): `none`
models the Python argument None (the default), for which the source
returns the empty string before any transport interaction; `some cmds`
models a command list.  Otherwise the source enters system view,
delegates delivery to the base class, optionally exits system view,
and normalizes the line feeds of the accumulated output.  A raised
error propagates, abandoning the accumulated output. -/
def send_config_set (config_commands : Option (List (List Char))) (exitFlag : Bool)
    (t : Transport) : Except DeviceError (List Char) × Transport :=
  match config_commands with
  | none => (Except.ok [], t)
  | some cmds =>
    match system_view t with
    | (Except.error e, t1) => (Except.error e, t1)
    | (Except.ok o1, t1) =>
      match base_send_config_set cmds t1 with
      | (Except.error e, t2) => (Except.error e, t2)
      | (Except.ok o2, t2) =>
        match (if exitFlag then exit_system_view t2 else (Except.ok [], t2)) with
        | (Except.error e, t3) => (Except.error e, t3)
        | (Except.ok o3, t3) => (Except.ok (normalizeLinefeeds (o1 ++ o2 ++ o3)), t3)

/-- A character re.escape leaves bare is not the class closer. -/
theorem notSpecial_ne_rbracket {c : Char} (h : c ∉ reSpecialChars) : c ≠ ']' := by
  intro he
  subst he
  exact h (by decide)

/-- A character re.escape leaves bare is not a backslash. -/
theorem notSpecial_ne_backslash {c : Char} (h : c ∉ reSpecialChars) : c ≠ '\\' := by
  intro he
  subst he
  exact h (by decide)

/-- A character re.escape leaves bare is not the class opener. -/
theorem notSpecial_ne_lbracket {c : Char} (h : c ∉ reSpecialChars) : c ≠ '[' := by
  intro he
  subst he
  exact h (by decide)

theorem classMembers_esc (d : Char) (s : List Char) :
    classMembers ('\\' :: d :: s) = d :: classMembers s := by
  conv_lhs => rw [classMembers.eq_def]
  simp

theorem classMembers_cons {c : Char} (s : List Char) (h : c ≠ '\\') :
    classMembers (c :: s) = c :: classMembers s := by
  conv_lhs => rw [classMembers.eq_def]
  simp [h]

theorem classMembers_reEscapeChar (c : Char) (s : List Char) :
    classMembers (reEscapeChar c ++ s) = c :: classMembers s := by
  by_cases hc : c ∈ reSpecialChars
  · rw [reEscapeChar, if_pos hc]
    exact classMembers_esc c s
  · rw [reEscapeChar, if_neg hc]
    exact classMembers_cons s (notSpecial_ne_backslash hc)

theorem delimJoin_cons_cons (c d : Char) (ds : List Char) :
    delimJoin (c :: d :: ds) = reEscapeChar c ++ '|' :: delimJoin (d :: ds) := rfl

/-- Every configured delimiter character is a member of the character
class built from the joined escaped delimiters. -/
theorem mem_classMembers_delimJoin {c : Char} {ds : List Char} (h : c ∈ ds) :
    c ∈ classMembers (delimJoin ds) := by
  induction ds with
  | nil => cases h
  | cons a ds ih =>
    cases ds with
    | nil =>
      rcases List.mem_singleton.mp h with rfl
      have h1 : delimJoin [c] = reEscapeChar c ++ [] := by
        rw [List.append_nil]
        rfl
      rw [h1, classMembers_reEscapeChar]
      exact List.mem_cons_self _ _
    | cons b ds' =>
      rw [delimJoin_cons_cons, classMembers_reEscapeChar]
      rcases List.mem_cons.mp h with rfl | h'
      · exact List.mem_cons_self _ _
      · rw [classMembers_cons _ (by decide)]
        exact List.mem_cons_of_mem _ (List.mem_cons_of_mem _ (ih h'))

theorem containsChar_of_mem {c : Char} {s : List Char} (h : c ∈ s) :
    containsChar s c = true := by
  induction s with
  | nil => cases h
  | cons a s ih =>
    rcases List.mem_cons.mp h with rfl | h'
    · simp [containsChar]
    · simp [containsChar, ih h']

theorem mem_of_containsChar {c : Char} {s : List Char} (h : containsChar s c = true) :
    c ∈ s := by
  induction s with
  | nil => simp [containsChar] at h
  | cons a s ih =>
    rw [containsChar, Bool.or_eq_true, beq_iff_eq] at h
    rcases h with rfl | h'
    · exact List.mem_cons_self _ _
    · exact List.mem_cons_of_mem _ (ih h')

theorem splitClass_rbracket (rest : List Char) :
    splitClass (']' :: rest) = some ([], rest) := by
  conv_lhs => rw [splitClass.eq_def]
  simp

theorem splitClass_esc (d : Char) (rest : List Char) :
    splitClass ('\\' :: d :: rest) =
      (splitClass rest).map (fun p => ('\\' :: d :: p.1, p.2)) := by
  conv_lhs => rw [splitClass.eq_def]
  simp

theorem splitClass_cons {c : Char} (rest : List Char) (h1 : c ≠ ']') (h2 : c ≠ '\\') :
    splitClass (c :: rest) = (splitClass rest).map (fun p => (c :: p.1, p.2)) := by
  conv_lhs => rw [splitClass.eq_def]
  simp [h1, h2]

theorem splitClass_reEscapeChar (c : Char) (s : List Char) :
    splitClass (reEscapeChar c ++ s) =
      (splitClass s).map (fun p => (reEscapeChar c ++ p.1, p.2)) := by
  by_cases hc : c ∈ reSpecialChars
  · rw [reEscapeChar, if_pos hc, List.cons_append, List.cons_append, List.nil_append,
      splitClass_esc]
    rfl
  · rw [reEscapeChar, if_neg hc, List.cons_append, List.nil_append,
      splitClass_cons s (notSpecial_ne_rbracket hc) (notSpecial_ne_backslash hc)]
    rfl

/-- Splitting the class body off the pattern returns exactly the joined
escaped delimiters and the rest after the closing bracket. -/
theorem splitClass_delimJoin (ds : List Char) (rest : List Char) :
    splitClass (delimJoin ds ++ ']' :: rest) = some (delimJoin ds, rest) := by
  induction ds with
  | nil =>
    rw [show delimJoin [] = [] from rfl, List.nil_append, splitClass_rbracket]
  | cons a ds ih =>
    cases ds with
    | nil =>
      rw [show delimJoin [a] = reEscapeChar a from rfl, splitClass_reEscapeChar,
        splitClass_rbracket]
      simp
    | cons b ds' =>
      rw [delimJoin_cons_cons, List.append_assoc, splitClass_reEscapeChar,
        List.cons_append, splitClass_cons _ (by decide) (by decide), ih]
      simp

theorem splitLit_lbracket (rest : List Char) :
    splitLit ('[' :: rest) = some ([], rest) := by
  conv_lhs => rw [splitLit.eq_def]
  simp

theorem splitLit_esc (d : Char) (rest : List Char) :
    splitLit ('\\' :: d :: rest) =
      (splitLit rest).map (fun p => ('\\' :: d :: p.1, p.2)) := by
  conv_lhs => rw [splitLit.eq_def]
  simp

theorem splitLit_cons {c : Char} (rest : List Char) (h1 : c ≠ '[') (h2 : c ≠ '\\') :
    splitLit (c :: rest) = (splitLit rest).map (fun p => (c :: p.1, p.2)) := by
  conv_lhs => rw [splitLit.eq_def]
  simp [h1, h2]

theorem splitLit_reEscapeChar (c : Char) (s : List Char) :
    splitLit (reEscapeChar c ++ s) =
      (splitLit s).map (fun p => (reEscapeChar c ++ p.1, p.2)) := by
  by_cases hc : c ∈ reSpecialChars
  · rw [reEscapeChar, if_pos hc, List.cons_append, List.cons_append, List.nil_append,
      splitLit_esc]
    rfl
  · rw [reEscapeChar, if_neg hc, List.cons_append, List.nil_append,
      splitLit_cons s (notSpecial_ne_lbracket hc) (notSpecial_ne_backslash hc)]
    rfl

/-- Splitting the literal run off the pattern returns exactly the
escaped hostname and the rest after the opening bracket. -/
theorem splitLit_reEscape (hp : List Char) (rest : List Char) :
    splitLit (reEscape hp ++ '[' :: rest) = some (reEscape hp, rest) := by
  induction hp with
  | nil => rw [show reEscape [] = [] from rfl, List.nil_append, splitLit_lbracket]
  | cons a hp ih =>
    rw [reEscape, List.append_assoc, splitLit_reEscapeChar, ih]
    simp

theorem matchLit_esc (d : Char) (pr : List Char) (x : Char) (s : List Char) :
    matchLit ('\\' :: d :: pr) (x :: s) =
      if x = d then matchLit pr s else none := by
  conv_lhs => rw [matchLit.eq_def]
  simp

theorem matchLit_cons {c : Char} (pr : List Char) (x : Char) (s : List Char)
    (h : c ≠ '\\') :
    matchLit (c :: pr) (x :: s) = if x = c then matchLit pr s else none := by
  conv_lhs => rw [matchLit.eq_def]
  simp [h]

/-- An escaped literal consumes exactly its plain text from the front
of the input. -/
theorem matchLit_reEscape (hp : List Char) (s : List Char) :
    matchLit (reEscape hp) (hp ++ s) = some s := by
  induction hp with
  | nil => rw [show reEscape [] = [] from rfl, List.nil_append, matchLit]
  | cons a hp ih =>
    by_cases ha : a ∈ reSpecialChars
    · rw [reEscape, reEscapeChar, if_pos ha, List.cons_append, List.cons_append,
        List.nil_append, List.cons_append, matchLit_esc, if_pos rfl, ih]
    · rw [reEscape, reEscapeChar, if_neg ha, List.cons_append, List.nil_append,
        List.cons_append, matchLit_cons _ _ _ (notSpecial_ne_backslash ha),
        if_pos rfl, ih]

/-- The star-then-closer tail accepts any run of word/hyphen characters
followed by a class member. -/
theorem starThenClose_extend {R : List Char} {w : List Char} {c : Char} (rest : List Char)
    (hw : ∀ x ∈ w, isWordHyphen x = true) (hc : containsChar R c = true) :
    starThenClose R (w ++ c :: rest) = true := by
  induction w with
  | nil => simp [starThenClose, hc]
  | cons a w ih =>
    have ha : isWordHyphen a = true := hw a (List.mem_cons_self _ _)
    have ih' := ih (fun x hx => hw x (List.mem_cons_of_mem _ hx))
    simp [starThenClose, ha, ih']

/-- Parsing a pattern built from the class template recovers the three
components. -/
theorem parseBuilt_formatPattern (dl dr : List Char) (hp : List Char) :
    parseBuilt (formatPattern (delimJoin dl) (reEscape hp) (delimJoin dr)) =
      some (delimJoin dl, reEscape hp, delimJoin dr) := by
  have h1 : formatPattern (delimJoin dl) (reEscape hp) (delimJoin dr) =
      '[' :: (delimJoin dl ++ ']' :: (reEscape hp ++ '[' ::
        ('\\' :: '-' :: '\\' :: 'w' :: ']' :: '*' :: '[' ::
          (delimJoin dr ++ ']' :: [])))) := by
    rw [formatPattern]
  rw [h1]
  conv_lhs => rw [parseBuilt.eq_def]
  simp [splitClass_delimJoin, splitLit_reEscape]

/-- Master lemma for well-formed prompts: for a raw prompt made of a
configured opener, a hostname whose characters beyond the first twelve
are word/hyphen characters, and a configured closer, _set_base_prompt
stores the untruncated hostname and builds a pattern that matches the
raw prompt. -/
theorem set_base_prompt_run (dl dr : List Char) (o c : Char) (host : List Char)
    (ho : o ∈ dl) (hc : c ∈ dr)
    (hsuf : ∀ x ∈ host.drop 12, isWordHyphen x = true) :
    (set_base_prompt dl dr (o :: (host ++ [c]))).base_prompt = host ∧
      regexSearchString (set_base_prompt dl dr (o :: (host ++ [c]))).base_pattern
        (o :: (host ++ [c])) = true := by
  have hbp : ((o :: (host ++ [c])).drop 1).dropLast = host := by
    rw [List.drop_one, List.tail_cons, List.dropLast_concat]
  have hpat : (set_base_prompt dl dr (o :: (host ++ [c]))).base_pattern =
      formatPattern (delimJoin dl) (reEscape (host.take 12)) (delimJoin dr) := by
    rw [set_base_prompt]
    simp only [hbp]
  constructor
  · rw [set_base_prompt]
    exact hbp
  · rw [hpat, regexSearchString, parseBuilt_formatPattern]
    have hsplit : host ++ [c] = host.take 12 ++ (host.drop 12 ++ [c]) := by
      rw [← List.append_assoc, List.take_append_drop]
    have hlit : matchLit (reEscape (host.take 12)) (host ++ [c]) =
        some (host.drop 12 ++ [c]) := by
      rw [hsplit, matchLit_reEscape]
    have hstar : starThenClose (classMembers (delimJoin dr)) (host.drop 12 ++ [c]) =
        true := by
      exact starThenClose_extend (R := classMembers (delimJoin dr))
        (w := host.drop 12) (c := c) [] hsuf
        (containsChar_of_mem (mem_classMembers_delimJoin hc))
    have hopen : containsChar (classMembers (delimJoin dl)) o = true :=
      containsChar_of_mem (mem_classMembers_delimJoin ho)
    have hmh : matchHere (classMembers (delimJoin dl)) (reEscape (host.take 12))
        (classMembers (delimJoin dr)) (o :: (host ++ [c])) = true := by
      simp only [matchHere, hopen, hlit, hstar, Bool.true_and]
    show searchPat (classMembers (delimJoin dl)) (reEscape (host.take 12))
      (classMembers (delimJoin dr)) (o :: (host ++ [c])) = true
    rw [searchPat.eq_def]
    simp [hmh]

/-- Inversion of the search: a successful search matches at some
position. -/
theorem searchPat_inv {L h R : List Char} {s : List Char}
    (hs : searchPat L h R s = true) :
    ∃ pre suf, s = pre ++ suf ∧ matchHere L h R suf = true := by
  induction s with
  | nil => rw [searchPat] at hs; cases hs
  | cons a s ih =>
    rw [searchPat, Bool.or_eq_true] at hs
    rcases hs with hm | hrec
    · exact ⟨[], a :: s, rfl, hm⟩
    · rcases ih hrec with ⟨pre, suf, heq, hm⟩
      exact ⟨a :: pre, suf, by rw [heq, List.cons_append], hm⟩

/-- Inversion of a position match: it factors into an opener-class
character, the literal, and the tail. -/
theorem matchHere_inv {L h R : List Char} {s : List Char}
    (hm : matchHere L h R s = true) :
    ∃ o rest, s = o :: rest ∧ containsChar L o = true ∧
      ∃ rem, matchLit h rest = some rem ∧ starThenClose R rem = true := by
  cases s with
  | nil => rw [matchHere] at hm; cases hm
  | cons o rest =>
    rw [matchHere, Bool.and_eq_true] at hm
    obtain ⟨ho, htail⟩ := hm
    cases hml : matchLit h rest with
    | none => rw [hml] at htail; cases htail
    | some rem =>
      rw [hml] at htail
      exact ⟨o, rest, rfl, ho, rem, hml, htail⟩

theorem unescapeLit_nil : unescapeLit [] = [] := rfl

theorem unescapeLit_esc (d : Char) (pr : List Char) :
    unescapeLit ('\\' :: d :: pr) = d :: unescapeLit pr := by
  conv_lhs => rw [unescapeLit.eq_def]
  simp

theorem unescapeLit_cons {c : Char} (pr : List Char) (h : c ≠ '\\') :
    unescapeLit (c :: pr) = c :: unescapeLit pr := by
  conv_lhs => rw [unescapeLit.eq_def]
  simp [h]

/-- Inversion of the literal match: it consumes exactly the unescaped
text of the literal. -/
theorem matchLit_inv {p s rem : List Char} (hm : matchLit p s = some rem) :
    s = unescapeLit p ++ rem := by
  induction s generalizing p rem with
  | nil =>
    cases p with
    | nil =>
      rw [matchLit] at hm
      cases hm
      rw [unescapeLit_nil, List.nil_append]
    | cons c pr =>
      by_cases hcb : c = '\\'
      · subst hcb
        cases pr with
        | nil => rw [matchLit.eq_def] at hm; simp at hm
        | cons d pr' => rw [matchLit.eq_def] at hm; simp at hm
      · rw [matchLit.eq_def] at hm
        simp [hcb] at hm
  | cons x s' ih =>
    cases p with
    | nil =>
      rw [matchLit] at hm
      cases hm
      rw [unescapeLit_nil, List.nil_append]
    | cons c pr =>
      by_cases hcb : c = '\\'
      · subst hcb
        cases pr with
        | nil => rw [matchLit.eq_def] at hm; simp at hm
        | cons d pr' =>
          rw [matchLit_esc] at hm
          by_cases hx : x = d
          · rw [if_pos hx] at hm
            subst hx
            rw [unescapeLit_esc, List.cons_append, ih hm]
          · rw [if_neg hx] at hm; cases hm
      · rw [matchLit_cons _ _ _ hcb] at hm
        by_cases hx : x = c
        · rw [if_pos hx] at hm
          subst hx
          rw [unescapeLit_cons _ hcb, List.cons_append, ih hm]
        · rw [if_neg hx] at hm; cases hm

/-- Inversion of the tail match: it is a word/hyphen run followed by a
closer-class character. -/
theorem starThenClose_inv {R : List Char} {s : List Char}
    (hs : starThenClose R s = true) :
    ∃ w c rest, s = w ++ c :: rest ∧ (∀ x ∈ w, isWordHyphen x = true) ∧
      containsChar R c = true := by
  induction s with
  | nil => rw [starThenClose] at hs; cases hs
  | cons a s ih =>
    rw [starThenClose, Bool.or_eq_true, Bool.and_eq_true] at hs
    rcases hs with hcl | ⟨hwh, hrec⟩
    · exact ⟨[], a, s, rfl, fun x hx => absurd hx (List.not_mem_nil x), hcl⟩
    · rcases ih hrec with ⟨w, c, rest, heq, hw, hc⟩
      refine ⟨a :: w, c, rest, by rw [heq, List.cons_append], ?_, hc⟩
      intro x hx
      rcases List.mem_cons.mp hx with rfl | hx'
      · exact hwh
      · exact hw x hx'

/-- One probe round trip: a single write of the normalized blank line,
a single read, and the boolean is the marker test on the text read. -/
theorem check_system_view_run (w : List (List Char)) (r : List Char)
    (rs : List (List Char)) :
    check_system_view ⟨w, r :: rs⟩ =
      (Except.ok (containsChar r system_view_check),
       ⟨w ++ [normalizeCmd ['\n']], rs⟩) := rfl

/-- The complete behavior of _system_view on a session scripted with at
least three reads: the first probe answer decides the no-op branch, the
second probe answer decides between success and the enter failure. -/
theorem system_view_run (w : List (List Char)) (r1 r2 r3 : List Char)
    (rs : List (List Char)) :
    system_view ⟨w, r1 :: r2 :: r3 :: rs⟩ =
      if containsChar r1 system_view_check then
        (Except.ok [], ⟨w ++ [normalizeCmd ['\n']], r2 :: r3 :: rs⟩)
      else if containsChar r3 system_view_check then
        (Except.ok r2,
         ⟨w ++ [normalizeCmd ['\n'], normalizeCmd system_view_enter,
               normalizeCmd ['\n']], rs⟩)
      else
        (Except.error DeviceError.enterFailed,
         ⟨w ++ [normalizeCmd ['\n'], normalizeCmd system_view_enter,
               normalizeCmd ['\n']], rs⟩) := by
  cases hc1 : containsChar r1 system_view_check <;>
    cases hc3 : containsChar r3 system_view_check <;>
      simp [system_view, check_system_view_run, hc1, hc3, Transport.write,
        Transport.readUntilPrompt, List.append_assoc]

/-- The complete behavior of _exit_system_view on a session scripted
with at least three reads, symmetric to system_view_run. -/
theorem exit_system_view_run (w : List (List Char)) (r1 r2 r3 : List Char)
    (rs : List (List Char)) :
    exit_system_view ⟨w, r1 :: r2 :: r3 :: rs⟩ =
      if containsChar r1 system_view_check then
        if containsChar r3 system_view_check then
          (Except.error DeviceError.exitFailed,
           ⟨w ++ [normalizeCmd ['\n'], normalizeCmd system_view_exit,
                 normalizeCmd ['\n']], rs⟩)
        else
          (Except.ok r2,
           ⟨w ++ [normalizeCmd ['\n'], normalizeCmd system_view_exit,
                 normalizeCmd ['\n']], rs⟩)
      else
        (Except.ok [], ⟨w ++ [normalizeCmd ['\n']], r2 :: r3 :: rs⟩) := by
  cases hc1 : containsChar r1 system_view_check <;>
    cases hc3 : containsChar r3 system_view_check <;>
      simp [exit_system_view, check_system_view_run, hc1, hc3, Transport.write,
        Transport.readUntilPrompt, List.append_assoc]

/-- C1, counterexample: with an empty (but present) command list and
exitFlag true, send_config_set does interact with the transport — the
source only short-circuits on an absent (None) command list.  On a
scripted healthy session the call performs six writes (probe, enter
command, verify probe, exit probe, exit command, verify probe) and
returns the non-empty mode-transition output, refuting both the
zero-writes and the empty-string parts of the claim. -/
theorem claim_C1_counterexample :
    (send_config_set (some []) true
        ⟨[], ["<sw>".data, "[sw]".data, "[sw]".data, "[sw]".data,
              "<sw>".data, "<sw>".data]⟩) =
      (Except.ok ("[sw]<sw>".data),
       ⟨[normalizeCmd ['\n'], normalizeCmd system_view_enter, normalizeCmd ['\n'],
         normalizeCmd ['\n'], normalizeCmd system_view_exit, normalizeCmd ['\n']],
        []⟩) ∧
    ("[sw]<sw>".data ≠ ([] : List Char)) ∧
    ([normalizeCmd ['\n'], normalizeCmd system_view_enter, normalizeCmd ['\n'],
      normalizeCmd ['\n'], normalizeCmd system_view_exit, normalizeCmd ['\n']] ≠
        ([] : List (List Char))) :=
  ⟨rfl, by decide, by decide⟩

/-- C1, amended: only an absent (None) command list makes send_config_set
return the empty string immediately, with zero transport writes, zero
reads and no mode change, for every transport state and exit flag. -/
theorem claim_C1_theorem (exitFlag : Bool) (t : Transport) :
    send_config_set none exitFlag t = (Except.ok [], t) := rfl

/-- C2, counterexample: for the well-formed raw prompt whose hostname
"abcdefghijkl.z" has fourteen characters, _set_base_prompt stores the
full untruncated hostname (not the twelve-character truncation the
claim states), and the built pattern does not match the raw prompt
itself (the dot beyond position twelve falls outside the word/hyphen
class). -/
theorem claim_C2_counterexample :
    (set_base_prompt delimiter_left_list delimiter_list
        ("<abcdefghijkl.z>".data)).base_prompt = "abcdefghijkl.z".data ∧
    ("abcdefghijkl.z".data ≠ ("abcdefghijkl.z".data).take 12) ∧
    regexSearchString (set_base_prompt delimiter_left_list delimiter_list
        ("<abcdefghijkl.z>".data)).base_pattern ("<abcdefghijkl.z>".data) = false :=
  ⟨rfl, by decide, rfl⟩

/-- C2, amended: for every well-formed raw prompt built from a
configured opener, a hostname and a configured closer, _set_base_prompt
stores the full hostname (untruncated) in base_prompt, embeds the
hostname truncated to at most twelve characters in the pattern, and
the pattern matches the raw prompt itself whenever every hostname
character beyond the first twelve is a word or hyphen character (in
particular for every hostname of at most twelve characters). -/
theorem claim_C2_theorem (host : List Char) (o c : Char)
    (ho : o ∈ delimiter_left_list) (hc : c ∈ delimiter_list)
    (hsuf : ∀ x ∈ host.drop 12, isWordHyphen x = true) :
    (set_base_prompt delimiter_left_list delimiter_list
        (o :: (host ++ [c]))).base_prompt = host ∧
      regexSearchString (set_base_prompt delimiter_left_list delimiter_list
          (o :: (host ++ [c]))).base_pattern (o :: (host ++ [c])) = true :=
  set_base_prompt_run delimiter_left_list delimiter_list o c host ho hc hsuf

/-- C2, witness at the prompt with opener <, hostname sw1, closer >. -/
theorem claim_C2_witness :
    (set_base_prompt delimiter_left_list delimiter_list
        ('<' :: ("sw1".data ++ ['>']))).base_prompt = "sw1".data ∧
      regexSearchString (set_base_prompt delimiter_left_list delimiter_list
          ('<' :: ("sw1".data ++ ['>']))).base_pattern
        ('<' :: ("sw1".data ++ ['>'])) = true :=
  claim_C2_theorem ("sw1".data) '<' '>' (by decide) (by decide) (by decide)

/-- C3: on every session whose probe reports user view both before and
after the enter command is written, send_config_set fails with the
enter-mode transition error, and the transport receives exactly the
probe blank line, the enter command and the verification blank line —
independently of the command list, so no configuration command is
delivered. -/
theorem claim_C3_theorem (cs : List (List Char)) (exitFlag : Bool)
    (w : List (List Char)) (r1 r2 r3 : List Char) (rs : List (List Char))
    (h1 : containsChar r1 system_view_check = false)
    (h3 : containsChar r3 system_view_check = false) :
    send_config_set (some cs) exitFlag ⟨w, r1 :: r2 :: r3 :: rs⟩ =
      (Except.error DeviceError.enterFailed,
       ⟨w ++ [normalizeCmd ['\n'], normalizeCmd system_view_enter,
             normalizeCmd ['\n']], rs⟩) := by
  simp [send_config_set, system_view_run, h1, h3]

/-- C3, witness on a concrete failing session with one pending command. -/
theorem claim_C3_witness :
    send_config_set (some ["display version".data]) true
        ⟨[], ["<sw>".data, "resp".data, "<sw>".data]⟩ =
      (Except.error DeviceError.enterFailed,
       ⟨[] ++ [normalizeCmd ['\n'], normalizeCmd system_view_enter,
              normalizeCmd ['\n']], []⟩) :=
  claim_C3_theorem ["display version".data] true [] ("<sw>".data) ("resp".data)
    ("<sw>".data) [] rfl rfl

/-- C4, counterexample: on a session whose probe reports system view, a
second consecutive _system_view call does produce transport traffic —
one more write (the probe blank line) and one more read — refuting the
zero-writes-and-zero-reads part of the claim. -/
theorem claim_C4_counterexample :
    (system_view ((system_view ⟨[], ["[sw]".data, "[sw]".data]⟩).2)).2.writes.length =
      (system_view ⟨[], ["[sw]".data, "[sw]".data]⟩).2.writes.length + 1 ∧
    (system_view ((system_view ⟨[], ["[sw]".data, "[sw]".data]⟩).2)).2.reads.length + 1 =
      (system_view ⟨[], ["[sw]".data, "[sw]".data]⟩).2.reads.length ∧
    (system_view ((system_view ⟨[], ["[sw]".data, "[sw]".data]⟩).2)).1 =
      Except.ok [] := ⟨rfl, rfl, rfl⟩

/-- C4, amended: when the probe reports system view (in particular on
any call after a successful _system_view), _system_view performs
exactly one transport write (the probe's normalized blank line) and one
read, writes no mode-change command, and returns empty output — so the
device remains in system view. -/
theorem claim_C4_theorem (w : List (List Char)) (r : List Char)
    (rs : List (List Char)) (h : containsChar r system_view_check = true) :
    system_view ⟨w, r :: rs⟩ =
      (Except.ok [], ⟨w ++ [normalizeCmd ['\n']], rs⟩) := by
  simp [system_view, check_system_view_run, h]

/-- C4, witness on a concrete session already in system view. -/
theorem claim_C4_witness :
    system_view ⟨[], ["[sw]".data]⟩ =
      (Except.ok [], ⟨[] ++ [normalizeCmd ['\n']], []⟩) :=
  claim_C4_theorem [] ("[sw]".data) [] rfl

/-- C5, counterexample: with openers of length one and closers of
length two (unequal lengths), pattern building does not fail — the
source contains no length validation and no ConfigurationError — and
the built pattern still matches a well-formed prompt. -/
theorem claim_C5_counterexample :
    set_base_prompt ['<'] ['>', ']'] ("<sw>".data) =
      ⟨"sw".data, "[<]sw[\\-\\w]*[>|\\]]".data⟩ ∧
    regexSearchString ("[<]sw[\\-\\w]*[>|\\]]".data) ("<sw>".data) = true :=
  ⟨rfl, rfl⟩

/-- C5, amended: pattern building performs no validation of the
delimiter lists and never fails: even for openers and closers of
unequal lengths it stores the hostname and builds a pattern that
matches every well-formed prompt (no ConfigurationError exists in the
code). -/
theorem claim_C5_theorem (dl dr : List Char) (o c : Char) (host : List Char)
    (_hlen : dl.length ≠ dr.length) (ho : o ∈ dl) (hc : c ∈ dr)
    (hsuf : ∀ x ∈ host.drop 12, isWordHyphen x = true) :
    (set_base_prompt dl dr (o :: (host ++ [c]))).base_prompt = host ∧
      regexSearchString (set_base_prompt dl dr
          (o :: (host ++ [c]))).base_pattern (o :: (host ++ [c])) = true :=
  set_base_prompt_run dl dr o c host ho hc hsuf

/-- C5, witness with unequal delimiter lists. -/
theorem claim_C5_witness :
    (set_base_prompt ['<'] ['>', ']'] ('<' :: ("sw1".data ++ ['>']))).base_prompt =
      "sw1".data ∧
      regexSearchString (set_base_prompt ['<'] ['>', ']']
          ('<' :: ("sw1".data ++ ['>']))).base_pattern
        ('<' :: ("sw1".data ++ ['>'])) = true :=
  claim_C5_theorem ['<'] ['>', ']'] '<' '>' ("sw1".data) (by decide) (by decide)
    (by decide) (by decide)

/-- C6: on every call, the mode probe _check_system_view writes exactly
one normalized blank line, performs exactly one read, and returns true
exactly when the check marker occurs in the freshly read text. -/
theorem claim_C6_theorem (w : List (List Char)) (r : List Char)
    (rs : List (List Char)) :
    check_system_view ⟨w, r :: rs⟩ =
      (Except.ok (containsChar r system_view_check),
       ⟨w ++ [normalizeCmd ['\n']], rs⟩) :=
  check_system_view_run w r rs

/-- C7: _exit_system_view is a no-op returning empty output when the
probe reports user view; otherwise it writes the exit command, reads
the response, re-probes, and fails with the exit-mode transition error
exactly when the re-probe still reports system view. -/
theorem claim_C7_theorem (w : List (List Char)) (r1 r2 r3 : List Char)
    (rs : List (List Char)) (b1 b3 : Bool)
    (h1 : containsChar r1 system_view_check = b1)
    (h3 : containsChar r3 system_view_check = b3) :
    exit_system_view ⟨w, r1 :: r2 :: r3 :: rs⟩ =
      if b1 then
        if b3 then
          (Except.error DeviceError.exitFailed,
           ⟨w ++ [normalizeCmd ['\n'], normalizeCmd system_view_exit,
                 normalizeCmd ['\n']], rs⟩)
        else
          (Except.ok r2,
           ⟨w ++ [normalizeCmd ['\n'], normalizeCmd system_view_exit,
                 normalizeCmd ['\n']], rs⟩)
      else (Except.ok [], ⟨w ++ [normalizeCmd ['\n']], r2 :: r3 :: rs⟩) := by
  subst h1
  subst h3
  exact exit_system_view_run w r1 r2 r3 rs

/-- C7, witness on a concrete successful exit. -/
theorem claim_C7_witness :
    exit_system_view ⟨[], ["[sw]".data, "out".data, "<sw>".data]⟩ =
      (Except.ok ("out".data),
       ⟨[normalizeCmd ['\n'], normalizeCmd system_view_exit,
         normalizeCmd ['\n']], []⟩) := by
  have h := claim_C7_theorem [] ("[sw]".data) ("out".data) ("<sw>".data) []
    true false rfl rfl
  simpa using h

/-- C8, counterexample: on a session whose enter attempt fails
verification, _system_view returns the enter-failure error, which
carries no text — the non-empty response that was read after the enter
command ("output-text", consumed from the script) is discarded, not
returned to the caller as the claim states. -/
theorem claim_C8_counterexample :
    system_view ⟨[], ["<sw>".data, "output-text".data, "<sw>".data]⟩ =
      (Except.error DeviceError.enterFailed,
       ⟨[normalizeCmd ['\n'], normalizeCmd system_view_enter,
         normalizeCmd ['\n']], []⟩) ∧
    ("output-text".data ≠ ([] : List Char)) := ⟨rfl, by decide⟩

/-- C8, amended: _system_view returns the accumulated read text only on
success; on enter failure it raises the enter-mode transition error and
the accumulated text is discarded (the error carries no output). -/
theorem claim_C8_theorem (w : List (List Char)) (r1 r2 r3 : List Char)
    (rs : List (List Char)) (b1 b3 : Bool)
    (h1 : containsChar r1 system_view_check = b1)
    (h3 : containsChar r3 system_view_check = b3) :
    system_view ⟨w, r1 :: r2 :: r3 :: rs⟩ =
      if b1 then (Except.ok [], ⟨w ++ [normalizeCmd ['\n']], r2 :: r3 :: rs⟩)
      else if b3 then
        (Except.ok r2,
         ⟨w ++ [normalizeCmd ['\n'], normalizeCmd system_view_enter,
               normalizeCmd ['\n']], rs⟩)
      else
        (Except.error DeviceError.enterFailed,
         ⟨w ++ [normalizeCmd ['\n'], normalizeCmd system_view_enter,
               normalizeCmd ['\n']], rs⟩) := by
  subst h1
  subst h3
  exact system_view_run w r1 r2 r3 rs

/-- C8, witness on a concrete failing enter attempt. -/
theorem claim_C8_witness :
    system_view ⟨[], ["<sw>".data, "resp".data, "<sw1>".data]⟩ =
      (Except.error DeviceError.enterFailed,
       ⟨[normalizeCmd ['\n'], normalizeCmd system_view_enter,
         normalizeCmd ['\n']], []⟩) := by
  have h := claim_C8_theorem [] ("<sw>".data) ("resp".data) ("<sw1>".data) []
    false false rfl rfl
  simpa using h

/-- C9, counterexample: with the default delimiter sets (which contain
the regex-special characters left and right bracket) and hostname
sw.1, the built pattern matches the string made of the hostname framed
by bars — an unintended string containing neither a configured opener
nor a configured closer. -/
theorem claim_C9_counterexample :
    regexSearchString (set_base_prompt delimiter_left_list delimiter_list
        ("<sw.1>".data)).base_pattern ("|sw.1|".data) = true ∧
    containsChar ("|sw.1|".data) '<' = false ∧
    containsChar ("|sw.1|".data) '[' = false := ⟨rfl, rfl, rfl⟩

/-- C9, amended: escaping makes regex-special hostname and delimiter
characters literal — for hostname sw.1 under the default delimiters,
every string the pattern matches contains a substring made of a
character from the openers extended with the bar, the literal hostname
sw.1 (the dot matching only itself), a word/hyphen run, and a
character from the closers extended with the bar; the pattern does
match the intended prompt and does not match the variant with the dot
replaced by another character. -/
theorem claim_C9_theorem :
    (∀ s : List Char,
        regexSearchString (set_base_prompt delimiter_left_list delimiter_list
            ("<sw.1>".data)).base_pattern s = true →
        ∃ pre o w c rest, s = pre ++ o :: ("sw.1".data ++ (w ++ c :: rest)) ∧
          o ∈ ['<', '|', '['] ∧ c ∈ ['>', '|', ']'] ∧
          ∀ x ∈ w, isWordHyphen x = true) ∧
    regexSearchString (set_base_prompt delimiter_left_list delimiter_list
        ("<sw.1>".data)).base_pattern ("<sw.1>".data) = true ∧
    regexSearchString (set_base_prompt delimiter_left_list delimiter_list
        ("<sw.1>".data)).base_pattern ("<swX1>".data) = false := by
  refine ⟨?_, rfl, rfl⟩
  intro s hs
  have hred : regexSearchString (set_base_prompt delimiter_left_list delimiter_list
      ("<sw.1>".data)).base_pattern s =
      searchPat ['<', '|', '['] (['s', 'w', '\\', '.', '1']) ['>', '|', ']'] s := rfl
  rw [hred] at hs
  obtain ⟨pre, suf, hspre, hmh⟩ := searchPat_inv hs
  obtain ⟨o, rest, hsufeq, ho, rem, hml, hst⟩ := matchHere_inv hmh
  obtain ⟨wrun, c, rest', hrem, hw, hc⟩ := starThenClose_inv hst
  have hlit := matchLit_inv hml
  refine ⟨pre, o, wrun, c, rest', ?_, mem_of_containsChar ho,
    mem_of_containsChar hc, hw⟩
  rw [hspre, hsufeq, hlit, hrem]
  rw [show unescapeLit ['s', 'w', '\\', '.', '1'] = "sw.1".data from rfl]

/-- C9, witness: the intended prompt itself decomposes as the amended
claim describes. -/
theorem claim_C9_witness :
    ∃ pre o w c rest,
      "<sw.1>".data = pre ++ o :: ("sw.1".data ++ (w ++ c :: rest)) ∧
        o ∈ ['<', '|', '['] ∧ c ∈ ['>', '|', ']'] ∧
        ∀ x ∈ w, isWordHyphen x = true :=
  claim_C9_theorem.1 ("<sw.1>".data) rfl

/-- C10: with the default delimiter sets, the pattern built for
hostname switch1 also matches the bar-framed prompt, although the bar
is not a configured delimiter — the escaped delimiters are joined with
a bar before being placed inside the character classes, where the bar
is a literal member. -/
theorem claim_C10_theorem :
    regexSearchString (set_base_prompt delimiter_left_list delimiter_list
        ("<switch1>".data)).base_pattern ("|switch1|".data) = true ∧
    containsChar delimiter_left_list '|' = false ∧
    containsChar delimiter_list '|' = false := ⟨rfl, rfl, rfl⟩

end Netdev
